import Mathlib

/-!
Verification development for the recursive-optimization backend.

The embedding shallowly models `src/backend/recursive_algorithm.py` and
`src/backend/optimization.py`.  Python exceptions are modelled by an
`Except` monad over a tagged error type (`ValueError` vs `RecursionError`);
wall-clock time and peak-memory readings are environment inputs, so the
dispatcher takes them as explicit oracle parameters.
-/

namespace RecOpt

/-- Python exception classes raised by the backend: `ValueError` (invalid
input, unknown algorithm) and `RecursionError` (depth guards). -/
inductive PyError where
  | valueError (msg : String)
  | recursionError (msg : String)
deriving DecidableEq, Repr

/-- Propositional equality on `Except` outcomes is decidable when it is on
both components (used to evaluate concrete engine outcomes). -/
instance {e a : Type} [DecidableEq e] [DecidableEq a] : DecidableEq (Except e a) := fun x y =>
  match x, y with
  | .ok u, .ok v =>
    if h : u = v then isTrue (by rw [h]) else isFalse (by intro hh; cases hh; exact h rfl)
  | .error u, .error v =>
    if h : u = v then isTrue (by rw [h]) else isFalse (by intro hh; cases hh; exact h rfl)
  | .ok _, .error _ => isFalse (by intro hh; cases hh)
  | .error _, .ok _ => isFalse (by intro hh; cases hh)

/-- Model of `sys.getrecursionlimit() - 50` in `RecursiveAlgorithms.__init__`
(CPython default recursion limit 1000). -/
def maxRecursionDepth : Nat := 1000 - 50

/-- Model of `len(sys._getframe(1).f_back.f_back.f_code.co_names)` in
`fibonacci_naive` (recursive_algorithm.py line 28): the number of names in a
fixed enclosing code object, a small constant independent of the actual
recursion depth, modelled as 0.  It is always far below
`maxRecursionDepth`, so the guard on line 29 can never fire. -/
def introspectedDepth : Nat := 0

/-- Recursive core of `RecursiveAlgorithms.fibonacci_naive` for non-negative
arguments: `n <= 1` returns `n`, otherwise the depth guard is checked and the
call recurses as `fib(n-1) + fib(n-2)`. -/
def fibNaiveGo : Nat → Except PyError Nat
  | 0 => .ok 0
  | 1 => .ok 1
  | n + 2 =>
    if introspectedDepth > maxRecursionDepth then
      .error (.recursionError
        ("Approaching recursion limit at depth " ++ toString introspectedDepth))
    else do
      let a ← fibNaiveGo (n + 1)
      let b ← fibNaiveGo n
      .ok (a + b)

/-- `RecursiveAlgorithms.fibonacci_naive` (recursive_algorithm.py lines
20-32): rejects negative input with `ValueError`, otherwise computes the
doubly recursive Fibonacci. -/
def fibonacci_naive (n : Int) : Except PyError Int :=
  if n < 0 then .error (.valueError "Fibonacci not defined for negative numbers")
  else (fibNaiveGo n.toNat).map Int.ofNat

/-- The `for _ in range(2, n + 1)` loop of `fibonacci_iterative`, iterated
`k` times on the pair `(a, b)`: each step does `a, b = b, a + b`. -/
def fibIterLoop : Nat → Nat × Nat → Nat × Nat
  | 0, ab => ab
  | k + 1, (a, b) => fibIterLoop k (b, a + b)

/-- `RecursiveAlgorithms.fibonacci_iterative` (recursive_algorithm.py lines
50-60): rejects negative input with `ValueError`, returns `n` for `n <= 1`,
otherwise runs the iterative loop `n - 1` times (the length of
`range(2, n + 1)`) from `(0, 1)` and returns the second component. -/
def fibonacci_iterative (n : Int) : Except PyError Int :=
  if n < 0 then .error (.valueError "Fibonacci not defined for negative numbers")
  else if n ≤ 1 then .ok n
  else .ok (Int.ofNat (fibIterLoop (n.toNat - 1) (0, 1)).2)

theorem fibNaiveGo_eq_fib (n : Nat) : fibNaiveGo n = .ok (Nat.fib n) := by
  induction n using Nat.strong_induction_on with
  | _ n ih =>
    match n with
    | 0 => rfl
    | 1 => rfl
    | n + 2 =>
      have h1 : fibNaiveGo (n + 1) = .ok (Nat.fib (n + 1)) := ih (n + 1) (by omega)
      have h2 : fibNaiveGo n = .ok (Nat.fib n) := ih n (by omega)
      rw [fibNaiveGo, if_neg (by decide), h1, h2]
      show Except.ok (Nat.fib (n + 1) + Nat.fib n) = Except.ok (Nat.fib (n + 2))
      rw [Nat.fib_add_two, Nat.add_comm]

theorem fibIterLoop_fib (k m : Nat) :
    fibIterLoop k (Nat.fib m, Nat.fib (m + 1)) = (Nat.fib (m + k), Nat.fib (m + k + 1)) := by
  induction k generalizing m with
  | zero => simp [fibIterLoop]
  | succ k ih =>
    have h := ih (m + 1)
    rw [show m + 1 + k = m + (k + 1) from by omega] at h
    rw [fibIterLoop]
    have hfib : Nat.fib m + Nat.fib (m + 1) = Nat.fib (m + 1 + 1) := by
      rw [show m + 1 + 1 = m + 2 from rfl, Nat.fib_add_two]
    rw [hfib]
    exact h

theorem fibonacci_iterative_eq_fib (n : Int) (h : 0 ≤ n) :
    fibonacci_iterative n = .ok (Int.ofNat (Nat.fib n.toNat)) := by
  rw [fibonacci_iterative]
  rw [if_neg (by omega)]
  by_cases h1 : n ≤ 1
  · rw [if_pos h1]
    interval_cases n <;> rfl
  · rw [if_neg h1]
    have h2 : n.toNat - 1 ≥ 1 := by omega
    have hloop := fibIterLoop_fib (n.toNat - 1) 0
    simp only [Nat.fib_zero, Nat.fib_one, Nat.zero_add] at hloop
    rw [hloop]
    have ht : n.toNat - 1 + 1 = n.toNat := by omega
    simp [ht]

/-- C1: for every integer n with 0 ≤ n ≤ 30, the naive recursive Fibonacci
and the iterative Fibonacci return the same (successful) value. -/
theorem fibonacci_naive_eq_iterative (n : Int) (h0 : 0 ≤ n) (h30 : n ≤ 30) :
    fibonacci_naive n = fibonacci_iterative n := by
  rw [fibonacci_naive, if_neg (by omega), fibNaiveGo_eq_fib,
    fibonacci_iterative_eq_fib n h0]
  rfl

/-- Witness for C1 at n = 10: both sides evaluate to `.ok 55`. -/
theorem fibonacci_naive_eq_iterative_witness :
    (0 ≤ (10 : Int) ∧ (10 : Int) ≤ 30) ∧
      fibonacci_naive 10 = fibonacci_iterative 10 :=
  ⟨by decide, fibonacci_naive_eq_iterative 10 (by decide) (by decide)⟩

/-! ## Trees and the two traversals -/

/-- A tree node as built by the backend: a dict with a `'value'` string and
a `'children'` list of child nodes (optimization.py `generate_deep_tree`,
recursive_algorithm.py traversals).  Such a dict is always non-empty, so the
`if not root` check of `tree_traversal_iterative` is never taken for it. -/
inductive Tree where
  | node (value : String) (children : List Tree)

mutual

/-- Number of nodes of a tree (termination measure for the iterative
traversal loop). -/
def Tree.size : Tree → Nat
  | .node _ cs => 1 + Tree.sizeList cs

/-- Total number of nodes of a list of trees. -/
def Tree.sizeList : List Tree → Nat
  | [] => 0
  | t :: ts => Tree.size t + Tree.sizeList ts

end

mutual

/-- Depth of a tree in edges: a childless node has depth 0.  The naive
traversal of a tree of depth `h`, started at depth argument `d`, passes depth
arguments up to `d + h` to recursive calls. -/
def Tree.depth : Tree → Nat
  | .node _ cs => Tree.depthList cs

/-- One plus the maximal depth among a list of trees (0 for the empty
list). -/
def Tree.depthList : List Tree → Nat
  | [] => 0
  | t :: ts => max (1 + Tree.depth t) (Tree.depthList ts)

end

mutual

/-- Mathematical pre-order sequence of a tree: the node value followed by
the concatenated pre-orders of its children, in order. -/
def Tree.preorder : Tree → List String
  | .node v cs => v :: Tree.preorderList cs

/-- Concatenated pre-orders of a list of trees. -/
def Tree.preorderList : List Tree → List String
  | [] => []
  | t :: ts => Tree.preorder t ++ Tree.preorderList ts

end

mutual

/-- `RecursiveAlgorithms.tree_traversal_naive` (recursive_algorithm.py lines
62-72): raises `RecursionError` once the depth argument exceeds 1000,
otherwise emits the node value and recurses into each child in order with
depth + 1, concatenating the results. -/
def tree_traversal_naive : Tree → Nat → Except PyError (List String)
  | .node v cs, depth =>
    if depth > 1000 then .error (.recursionError "Maximum recursion depth exceeded")
    else do
      let rest ← traverseChildrenNaive cs (depth + 1)
      .ok (v :: rest)

/-- The `for child in node.get('children', [])` loop of
`tree_traversal_naive`: extends the result list with the traversal of each
child at the given (already incremented) depth. -/
def traverseChildrenNaive : List Tree → Nat → Except PyError (List String)
  | [], _ => .ok []
  | c :: cs, depth => do
    let r ← tree_traversal_naive c depth
    let rs ← traverseChildrenNaive cs depth
    .ok (r ++ rs)

end

theorem Tree.sizeList_append (a b : List Tree) :
    Tree.sizeList (a ++ b) = Tree.sizeList a + Tree.sizeList b := by
  induction a with
  | nil => simp [Tree.sizeList]
  | cons t ts ih => simp [Tree.sizeList, ih]; omega

theorem Tree.size_pos (t : Tree) : 1 ≤ Tree.size t := by
  match t with
  | .node v cs => rw [Tree.size]; omega

/-- The `while stack:` loop of `tree_traversal_iterative`
(recursive_algorithm.py lines 82-88), with the stack modelled head-as-top:
pop a node, emit its value, and push its children in reverse order, so the
resulting stack is `children ++ rest`. -/
def tree_traversal_iterative_go : List Tree → List String
  | [] => []
  | Tree.node v cs :: rest => v :: tree_traversal_iterative_go (cs ++ rest)
termination_by l => Tree.sizeList l
decreasing_by
  rw [Tree.sizeList_append, Tree.sizeList, Tree.size]
  omega

/-- `RecursiveAlgorithms.tree_traversal_iterative` (recursive_algorithm.py
lines 74-90): runs the stack loop starting from the singleton stack
`[root]`.  The `if not root` guard never fires for an actual tree node
(a non-empty dict), so it is not modelled. -/
def tree_traversal_iterative (root : Tree) : List String :=
  tree_traversal_iterative_go [root]

theorem Tree.preorderList_append (a b : List Tree) :
    Tree.preorderList (a ++ b) = Tree.preorderList a ++ Tree.preorderList b := by
  induction a with
  | nil => simp [Tree.preorderList]
  | cons t ts ih => simp [Tree.preorderList, ih]

theorem iter_go_eq (l : List Tree) :
    tree_traversal_iterative_go l = Tree.preorderList l := by
  induction l using tree_traversal_iterative_go.induct with
  | case1 => rw [tree_traversal_iterative_go]; rfl
  | case2 v cs rest ih =>
    rw [tree_traversal_iterative_go, ih, Tree.preorderList_append]
    rfl

theorem Tree.depth_mem {c : Tree} {l : List Tree} (h : c ∈ l) :
    1 + Tree.depth c ≤ Tree.depthList l := by
  induction l with
  | nil => cases h
  | cons t ts ih =>
    rw [Tree.depthList]
    cases h with
    | head => omega
    | tail _ h2 => have := ih h2; omega

theorem naive_aux (n : Nat) :
    (∀ t : Tree, Tree.size t ≤ n → ∀ d : Nat, Tree.depth t + d ≤ 1000 →
        tree_traversal_naive t d = .ok (Tree.preorder t)) ∧
    (∀ l : List Tree, Tree.sizeList l ≤ n → ∀ d : Nat,
        (∀ c ∈ l, Tree.depth c + d ≤ 1000) →
        traverseChildrenNaive l d = .ok (Tree.preorderList l)) := by
  induction n using Nat.strong_induction_on with
  | _ n ih =>
    have Ht : ∀ t : Tree, Tree.size t ≤ n → ∀ d : Nat, Tree.depth t + d ≤ 1000 →
        tree_traversal_naive t d = .ok (Tree.preorder t) := by
      intro t hsize d hdepth
      match t with
      | .node v cs =>
        have h1 : 1 ≤ n := le_trans (Tree.size_pos (Tree.node v cs)) hsize
        have hcs : Tree.sizeList cs ≤ n - 1 := by
          rw [Tree.size] at hsize; omega
        have hchild : ∀ c ∈ cs, Tree.depth c + (d + 1) ≤ 1000 := by
          intro c hc
          have := Tree.depth_mem hc
          rw [Tree.depth] at hdepth
          omega
        have hlist := (ih (n - 1) (by omega)).2 cs hcs (d + 1) hchild
        rw [tree_traversal_naive, if_neg (by omega), hlist]
        rfl
    refine ⟨Ht, ?_⟩
    intro l hsize d hd
    induction l with
    | nil => rfl
    | cons c cs ihl =>
      rw [Tree.sizeList] at hsize
      have hc := Ht c (by have := Tree.size_pos c; omega) d (hd c (by simp))
      have hcs := ihl (by have := Tree.size_pos c; omega)
        (fun x hx => hd x (by simp [hx]))
      rw [traverseChildrenNaive, hc, hcs]
      rfl

/-- C2: for every tree of depth at most 200 the naive recursive pre-order
traversal (started at depth argument 0, as the backend calls it) succeeds
and returns exactly the sequence produced by the iterative stack-based
traversal. -/
theorem tree_traversal_naive_eq_iterative (t : Tree) (h : Tree.depth t ≤ 200) :
    tree_traversal_naive t 0 = .ok (tree_traversal_iterative t) := by
  rw [(naive_aux (Tree.size t)).1 t (le_refl _) 0 (by omega)]
  rw [tree_traversal_iterative, iter_go_eq]
  rw [Tree.preorderList]
  rw [Tree.preorderList]
  simp

/-- A small concrete branching tree used to witness C2. -/
def sampleTree : Tree :=
  Tree.node "a" [Tree.node "b" [], Tree.node "c" [Tree.node "d" []]]

/-- Witness for C2 on `sampleTree` (depth 2 ≤ 200): both traversals give
`["a", "b", "c", "d"]`. -/
theorem tree_traversal_naive_eq_iterative_witness :
    Tree.depth sampleTree ≤ 200 ∧
      tree_traversal_naive sampleTree 0 = .ok (tree_traversal_iterative sampleTree) :=
  ⟨by decide, tree_traversal_naive_eq_iterative sampleTree (by decide)⟩

/-! ## The synthetic tree generator -/

/-- Recursive core of `OptimizedRecursion.generate_deep_tree` for positive
depths: `generate_deep_tree(d)` is a node labelled `node_d` with the single
child `generate_deep_tree(d - 1)`, bottoming out in a `leaf` node. -/
def genTreeNat : Nat → Tree
  | 0 => Tree.node "leaf" []
  | d + 1 => Tree.node ("node_" ++ toString (d + 1)) [genTreeNat d]

/-- `OptimizedRecursion.generate_deep_tree` (optimization.py lines 114-122):
depth ≤ 0 yields the single `leaf` node, a positive depth yields a chain of
`depth` labelled nodes ending in the leaf.  As a pure function it is
deterministic by construction: equal depths give structurally identical
trees. -/
def generate_deep_tree (depth : Int) : Tree :=
  if depth ≤ 0 then Tree.node "leaf" [] else genTreeNat depth.toNat

mutual

/-- A tree is a chain when every node has at most one child. -/
def Tree.isChain : Tree → Bool
  | .node _ cs => decide (cs.length ≤ 1) && Tree.isChainList cs

/-- Chain property for every tree in a list. -/
def Tree.isChainList : List Tree → Bool
  | [] => true
  | t :: ts => Tree.isChain t && Tree.isChainList ts

end

theorem genTreeNat_chain_length (d : Nat) :
    Tree.isChain (genTreeNat d) = true ∧ (Tree.preorder (genTreeNat d)).length = d + 1 := by
  induction d with
  | zero => constructor <;> rfl
  | succ d ih =>
    constructor
    · rw [genTreeNat, Tree.isChain, Tree.isChainList, Tree.isChainList, ih.1]
      rfl
    · rw [genTreeNat, Tree.preorder, Tree.preorderList, Tree.preorderList]
      simp [ih.2]

/-- C9: `generate_deep_tree` is a pure (hence deterministic) function whose
output for every requested depth `d ≥ 0` is a chain — every node has at most
one child — and whose pre-order traversal has exactly `d + 1` elements. -/
theorem generate_deep_tree_chain_and_length (d : Nat) :
    Tree.isChain (generate_deep_tree (d : Int)) = true ∧
      (Tree.preorder (generate_deep_tree (d : Int))).length = d + 1 := by
  match d with
  | 0 => constructor <;> rfl
  | d + 1 =>
    rw [generate_deep_tree, if_neg (by omega)]
    have : ((d + 1 : Nat) : Int).toNat = d + 1 := by omega
    rw [this]
    exact genTreeNat_chain_length (d + 1)

/-! ## Naive grid pathfinding -/

/-- Propagation of a successful Except value through bind (Python: a
non-raising call continues the sequence). -/
theorem ok_bind {e a b : Type} (x : a) (f : a → Except e b) :
    (Except.ok x : Except e a) >>= f = f x := rfl

theorem error_bind {e a b : Type} (err : e) (f : a → Except e b) :
    (Except.error err : Except e a) >>= f = Except.error err := rfl

/-- `RecursiveAlgorithms.pathfinding_naive` (recursive_algorithm.py lines
92-125), with the `depth` counter modelled by its remaining budget
`fuel = 1001 - depth`: the source raises `RecursionError` on entry exactly
when `depth > 1000`, i.e. when the budget is 0, and each recursive call
increments `depth` by 1, i.e. decrements the budget by 1.  In order: the
depth guard, the current-path membership check (revisits yield an empty
path), the boundary/obstacle check (out-of-bounds or obstacle cells yield
an empty path), the target check (returns the extended current path), and
otherwise the four neighbor probes in the fixed order down `(+1,0)`, up
`(-1,0)`, right `(0,+1)`, left `(0,-1)`; non-empty probe results are
collected in order and `min(paths, key=len)` — the first path of minimal
length — is returned, or an empty path when none reached the target. -/
def pathfindFuel (grid : List (List Nat)) (tx ty : Int) :
    Nat → Int → Int → List (Int × Int) → Except PyError (List (Int × Int))
  | 0, _, _, _ => .error (.recursionError "Pathfinding recursion depth exceeded")
  | fuel + 1, x, y, path =>
    if (x, y) ∈ path then .ok []
    else if x < 0 ∨ x ≥ (grid.length : Int) ∨ y < 0 ∨ y ≥ ((grid.headD []).length : Int)
        ∨ (grid.getD x.toNat []).getD y.toNat 0 = 1 then .ok []
    else
      let current_path := path ++ [(x, y)]
      if x = tx ∧ y = ty then .ok current_path
      else do
        let p1 ← pathfindFuel grid tx ty fuel (x + 1) y current_path
        let p2 ← pathfindFuel grid tx ty fuel (x - 1) y current_path
        let p3 ← pathfindFuel grid tx ty fuel x (y + 1) current_path
        let p4 ← pathfindFuel grid tx ty fuel x (y - 1) current_path
        let paths := [p1, p2, p3, p4].filter (fun p => !p.isEmpty)
        match paths with
        | [] => .ok []
        | q :: qs => .ok (qs.foldl (fun best r => if r.length < best.length then r else best) q)

/-- Entry point matching the source signature: the caller passes a start
cell, target cell, an already-visited path (the backend passes `None`,
i.e. `[]`) and a starting depth; the budget is `1001 - depth`. -/
def pathfinding_naive (grid : List (List Nat)) (x y tx ty : Int)
    (path : List (Int × Int)) (depth : Nat) : Except PyError (List (Int × Int)) :=
  pathfindFuel grid tx ty (1001 - depth) x y path

/-- The obstacle-free 5×5 grid of C8. -/
def freeGrid5 : List (List Nat) := List.replicate 5 (List.replicate 5 0)

/-- All 25 cells of the 5×5 grid; every path the search builds stays
inside this set and is duplicate-free, bounding its length by 25. -/
def allCells5 : List (Int × Int) :=
  (List.range 5).flatMap (fun i => (List.range 5).map (fun j => ((i : Int), (j : Int))))

/- fold-min facts -/

/-- Python `min(paths, key=len)`: scan left to right keeping the first
element of strictly minimal length. -/
def minFold (q : List (Int × Int)) (qs : List (List (Int × Int))) : List (Int × Int) :=
  qs.foldl (fun best r => if r.length < best.length then r else best) q

theorem minFold_le_init (q : List (Int × Int)) (qs : List (List (Int × Int))) :
    (minFold q qs).length ≤ q.length := by
  induction qs generalizing q with
  | nil => exact le_refl _
  | cons b bs ih =>
    rw [minFold, List.foldl]
    by_cases hb : b.length < q.length
    · rw [if_pos hb]
      exact le_trans (ih b) (by omega)
    · rw [if_neg hb]
      exact ih q

theorem minFold_mem (q : List (Int × Int)) (qs : List (List (Int × Int))) :
    minFold q qs ∈ q :: qs := by
  induction qs generalizing q with
  | nil => exact List.mem_singleton.2 rfl
  | cons b bs ih =>
    rw [minFold, List.foldl]
    by_cases hb : b.length < q.length
    · rw [if_pos hb]
      have := ih b
      simp only [List.mem_cons] at this ⊢
      tauto
    · rw [if_neg hb]
      have := ih q
      simp only [List.mem_cons] at this ⊢
      tauto

theorem minFold_le_mem (q e : List (Int × Int)) (qs : List (List (Int × Int)))
    (he : e ∈ q :: qs) : (minFold q qs).length ≤ e.length := by
  induction qs generalizing q with
  | nil =>
    rw [List.mem_singleton] at he
    rw [he]
    exact le_refl _
  | cons b bs ih =>
    rw [minFold, List.foldl]
    rw [List.mem_cons] at he
    rcases he with he | he
    · subst he
      by_cases hb : b.length < e.length
      · rw [if_pos hb]
        exact le_trans (minFold_le_init b bs) (by omega)
      · rw [if_neg hb]
        exact minFold_le_init e bs
    · rw [List.mem_cons] at he
      rcases he with he | he
      · subst he
        by_cases hb : e.length < q.length
        · rw [if_pos hb]
          exact minFold_le_init e bs
        · rw [if_neg hb]
          exact le_trans (minFold_le_init q bs) (by omega)
      · by_cases hb : b.length < q.length
        · rw [if_pos hb]
          exact ih b (by simp [he])
        · rw [if_neg hb]
          exact ih q (by simp [he])


theorem mem_allCells5 (x y : Int) (hx0 : 0 ≤ x) (hx5 : x < 5) (hy0 : 0 ≤ y) (hy5 : y < 5) :
    (x, y) ∈ allCells5 := by
  interval_cases x <;> interval_cases y <;> decide

theorem path_length_le_25 (path : List (Int × Int)) (hnd : path.Nodup)
    (hsub : ∀ c ∈ path, c ∈ allCells5) : path.length ≤ 25 := by
  have h := (List.subperm_of_subset hnd hsub).length_le
  simpa using h

theorem pathfind_no_error (f : Nat) :
    ∀ (x y : Int) (path : List (Int × Int)), path.Nodup →
    (∀ c ∈ path, c ∈ allCells5) → 26 - path.length ≤ f →
    ∃ r, pathfindFuel freeGrid5 4 4 f x y path = .ok r := by
  induction f with
  | zero =>
    intro x y path hnd hsub hf
    have := path_length_le_25 path hnd hsub
    omega
  | succ f ih =>
    intro x y path hnd hsub hf
    rw [pathfindFuel]
    by_cases hmem : (x, y) ∈ path
    · exact ⟨[], by rw [if_pos hmem]⟩
    · rw [if_neg hmem]
      by_cases hbound : x < 0 ∨ x ≥ (freeGrid5.length : Int) ∨ y < 0 ∨
          y ≥ ((freeGrid5.headD []).length : Int) ∨
          (freeGrid5.getD x.toNat []).getD y.toNat 0 = 1
      · exact ⟨[], by rw [if_pos hbound]⟩
      · rw [if_neg hbound]
        by_cases htgt : x = 4 ∧ y = 4
        · exact ⟨path ++ [(x, y)], by rw [if_pos htgt]⟩
        · rw [if_neg htgt]
          push_neg at hbound
          obtain ⟨hx0, hx5, hy0, hy5, _⟩ := hbound
          have hx5b : x < 5 := by simpa [freeGrid5] using hx5
          have hy5b : y < 5 := by simpa [freeGrid5] using hy5
          have hnd2 : (path ++ [(x, y)]).Nodup := by
            simp [List.nodup_append, hnd, hmem]
          have hsub2 : ∀ c ∈ path ++ [(x, y)], c ∈ allCells5 := by
            intro c hc
            rw [List.mem_append] at hc
            rcases hc with hc | hc
            · exact hsub c hc
            · rw [List.mem_singleton] at hc
              rw [hc]
              exact mem_allCells5 x y hx0 hx5b hy0 hy5b
          have hlen : (path ++ [(x, y)]).length = path.length + 1 := by simp
          have hf2 : 26 - (path ++ [(x, y)]).length ≤ f := by omega
          obtain ⟨p1, h1⟩ := ih (x + 1) y _ hnd2 hsub2 hf2
          obtain ⟨p2, h2⟩ := ih (x - 1) y _ hnd2 hsub2 hf2
          obtain ⟨p3, h3⟩ := ih x (y + 1) _ hnd2 hsub2 hf2
          obtain ⟨p4, h4⟩ := ih x (y - 1) _ hnd2 hsub2 hf2
          rw [h1, ok_bind, h2, ok_bind, h3, ok_bind, h4, ok_bind]
          cases hfil : [p1, p2, p3, p4].filter (fun p => !p.isEmpty) with
          | nil => exact ⟨[], rfl⟩
          | cons q qs => exact ⟨minFold q qs, rfl⟩


theorem pathfind_lower_bound (f : Nat) :
    ∀ (x y : Int) (path r : List (Int × Int)),
    pathfindFuel freeGrid5 4 4 f x y path = .ok r → r ≠ [] →
    path.length + 1 + ((4 - x).natAbs + (4 - y).natAbs) ≤ r.length := by
  induction f with
  | zero =>
    intro x y path r h
    rw [pathfindFuel] at h
    cases h
  | succ f ih =>
    intro x y path r h hne
    rw [pathfindFuel] at h
    by_cases hmem : (x, y) ∈ path
    · rw [if_pos hmem] at h
      cases h
      exact absurd rfl hne
    · rw [if_neg hmem] at h
      by_cases hbound : x < 0 ∨ x ≥ (freeGrid5.length : Int) ∨ y < 0 ∨
          y ≥ ((freeGrid5.headD []).length : Int) ∨
          (freeGrid5.getD x.toNat []).getD y.toNat 0 = 1
      · rw [if_pos hbound] at h
        cases h
        exact absurd rfl hne
      · rw [if_neg hbound] at h
        by_cases htgt : x = 4 ∧ y = 4
        · rw [if_pos htgt] at h
          cases h
          obtain ⟨hx, hy⟩ := htgt
          subst hx; subst hy
          simp
        · rw [if_neg htgt] at h
          cases h1 : pathfindFuel freeGrid5 4 4 f (x + 1) y (path ++ [(x, y)]) with
          | error e => rw [h1, error_bind] at h; cases h
          | ok p1 =>
          rw [h1, ok_bind] at h
          cases h2 : pathfindFuel freeGrid5 4 4 f (x - 1) y (path ++ [(x, y)]) with
          | error e => rw [h2, error_bind] at h; cases h
          | ok p2 =>
          rw [h2, ok_bind] at h
          cases h3 : pathfindFuel freeGrid5 4 4 f x (y + 1) (path ++ [(x, y)]) with
          | error e => rw [h3, error_bind] at h; cases h
          | ok p3 =>
          rw [h3, ok_bind] at h
          cases h4 : pathfindFuel freeGrid5 4 4 f x (y - 1) (path ++ [(x, y)]) with
          | error e => rw [h4, error_bind] at h; cases h
          | ok p4 =>
          rw [h4, ok_bind] at h
          cases hfil : [p1, p2, p3, p4].filter (fun p => !p.isEmpty) with
          | nil =>
            rw [hfil] at h
            cases h
            exact absurd rfl hne
          | cons q qs =>
            rw [hfil] at h
            cases h
            have hmemf : minFold q qs ∈ q :: qs := minFold_mem q qs
            rw [← hfil] at hmemf
            rw [List.mem_filter] at hmemf
            obtain ⟨hmem4, _⟩ := hmemf
            have hplen : (path ++ [(x, y)]).length = path.length + 1 := by simp
            simp only [List.mem_cons, List.not_mem_nil, or_false] at hmem4
            rcases hmem4 with he | he | he | he
            · have := ih (x + 1) y _ _ (he ▸ h1) hne
              rw [hplen] at this
              omega
            · have := ih (x - 1) y _ _ (he ▸ h2) hne
              rw [hplen] at this
              omega
            · have := ih x (y + 1) _ _ (he ▸ h3) hne
              rw [hplen] at this
              omega
            · have := ih x (y - 1) _ _ (he ▸ h4) hne
              rw [hplen] at this
              omega


theorem mem_filter_nonempty {s : List (Int × Int)} {l : List (List (Int × Int))}
    (hs : s ∈ l) (hne : s ≠ []) : s ∈ l.filter (fun p => !p.isEmpty) := by
  rw [List.mem_filter]
  exact ⟨hs, by simp [List.isEmpty_iff, hne]⟩

theorem filter_ne_nil {p1 p2 p3 p4 s : List (Int × Int)}
    (hs : s ∈ [p1, p2, p3, p4]) (hne : s ≠ []) :
    [p1, p2, p3, p4].filter (fun p => !p.isEmpty) ≠ [] := by
  intro h
  have := mem_filter_nonempty hs hne
  rw [h] at this
  exact List.not_mem_nil s this

theorem minFold_filter_spec {p1 p2 p3 p4 q s : List (Int × Int)}
    {qs : List (List (Int × Int))}
    (hfil : [p1, p2, p3, p4].filter (fun p => !p.isEmpty) = q :: qs)
    (hs : s ∈ [p1, p2, p3, p4]) (hne : s ≠ []) (hle : s.length ≤ 9) :
    minFold q qs ≠ [] ∧ (minFold q qs).length ≤ 9 := by
  have hsf : s ∈ q :: qs := by
    rw [← hfil]
    exact mem_filter_nonempty hs hne
  have hmf := minFold_mem q qs
  rw [← hfil, List.mem_filter] at hmf
  constructor
  · intro hcon
    rw [hcon] at hmf
    simp at hmf
  · exact le_trans (minFold_le_mem q s qs hsf) hle

theorem stair8 (f : Nat) (hf : 18 ≤ f) :
    ∃ r, pathfindFuel freeGrid5 4 4 f 4 4
      [(0, 0), (1, 0), (2, 0), (3, 0), (4, 0), (4, 1), (4, 2), (4, 3)] = .ok r ∧
      r ≠ [] ∧ r.length ≤ 9 := by
  obtain ⟨g, rfl⟩ : ∃ g, f = g + 1 := ⟨f - 1, by omega⟩
  rw [pathfindFuel, if_neg (by decide), if_neg (by decide), if_pos (by decide)]
  exact ⟨_, rfl, by decide, by decide⟩

theorem stair7 (f : Nat) (hf : 19 ≤ f) :
    ∃ r, pathfindFuel freeGrid5 4 4 f 4 3
      [(0, 0), (1, 0), (2, 0), (3, 0), (4, 0), (4, 1), (4, 2)] = .ok r ∧
      r ≠ [] ∧ r.length ≤ 9 := by
  obtain ⟨g, rfl⟩ : ∃ g, f = g + 1 := ⟨f - 1, by omega⟩
  rw [pathfindFuel, if_neg (by decide), if_neg (by decide), if_neg (by decide)]
  obtain ⟨p1, h1⟩ := pathfind_no_error g 5 3
    [(0, 0), (1, 0), (2, 0), (3, 0), (4, 0), (4, 1), (4, 2), (4, 3)]
    (by decide) (by decide) (by simp; omega)
  obtain ⟨p2, h2⟩ := pathfind_no_error g 3 3
    [(0, 0), (1, 0), (2, 0), (3, 0), (4, 0), (4, 1), (4, 2), (4, 3)]
    (by decide) (by decide) (by simp; omega)
  obtain ⟨p3, h3, h3ne, h3le⟩ := stair8 g (by omega)
  obtain ⟨p4, h4⟩ := pathfind_no_error g 4 2
    [(0, 0), (1, 0), (2, 0), (3, 0), (4, 0), (4, 1), (4, 2), (4, 3)]
    (by decide) (by decide) (by simp; omega)
  rw [show ([(0, 0), (1, 0), (2, 0), (3, 0), (4, 0), (4, 1), (4, 2)] :
      List (Int × Int)) ++ [(4, 3)] =
      [(0, 0), (1, 0), (2, 0), (3, 0), (4, 0), (4, 1), (4, 2), (4, 3)] from rfl]
  rw [show ((4 : Int) + 1) = 5 from rfl, show ((4 : Int) - 1) = 3 from rfl,
    show ((3 : Int) + 1) = 4 from rfl, show ((3 : Int) - 1) = 2 from rfl]
  rw [h1, ok_bind, h2, ok_bind, h3, ok_bind, h4, ok_bind]
  have hsmem : p3 ∈ [p1, p2, p3, p4] := by simp
  cases hfil : [p1, p2, p3, p4].filter (fun p => !p.isEmpty) with
  | nil => exact absurd hfil (by have := filter_ne_nil hsmem h3ne; exact this)
  | cons q qs =>
    obtain ⟨hne9, hle9⟩ := minFold_filter_spec hfil hsmem h3ne h3le
    exact ⟨minFold q qs, rfl, hne9, hle9⟩


theorem stair6 (f : Nat) (hf : 20 ≤ f) :
    ∃ r, pathfindFuel freeGrid5 4 4 f 4 2
      [(0, 0), (1, 0), (2, 0), (3, 0), (4, 0), (4, 1)] = .ok r ∧
      r ≠ [] ∧ r.length ≤ 9 := by
  obtain ⟨g, rfl⟩ : ∃ g, f = g + 1 := ⟨f - 1, by omega⟩
  rw [pathfindFuel, if_neg (by decide), if_neg (by decide), if_neg (by decide)]
  obtain ⟨p1, h1⟩ := pathfind_no_error g 5 2
    [(0, 0), (1, 0), (2, 0), (3, 0), (4, 0), (4, 1), (4, 2)]
    (by decide) (by decide) (by simp; omega)
  obtain ⟨p2, h2⟩ := pathfind_no_error g 3 2
    [(0, 0), (1, 0), (2, 0), (3, 0), (4, 0), (4, 1), (4, 2)]
    (by decide) (by decide) (by simp; omega)
  obtain ⟨p3, h3, h3ne, h3le⟩ := stair7 g (by omega)
  obtain ⟨p4, h4⟩ := pathfind_no_error g 4 1
    [(0, 0), (1, 0), (2, 0), (3, 0), (4, 0), (4, 1), (4, 2)]
    (by decide) (by decide) (by simp; omega)
  rw [show ([(0, 0), (1, 0), (2, 0), (3, 0), (4, 0), (4, 1)] :
      List (Int × Int)) ++ [(4, 2)] =
      [(0, 0), (1, 0), (2, 0), (3, 0), (4, 0), (4, 1), (4, 2)] from rfl]
  rw [show ((4 : Int) + 1) = 5 from rfl, show ((4 : Int) - 1) = 3 from rfl,
    show ((2 : Int) + 1) = 3 from rfl, show ((2 : Int) - 1) = 1 from rfl]
  rw [h1, ok_bind, h2, ok_bind, h3, ok_bind, h4, ok_bind]
  have hsmem : p3 ∈ [p1, p2, p3, p4] := by simp
  cases hfil : [p1, p2, p3, p4].filter (fun p => !p.isEmpty) with
  | nil => exact absurd hfil (filter_ne_nil hsmem h3ne)
  | cons q qs =>
    obtain ⟨hne9, hle9⟩ := minFold_filter_spec hfil hsmem h3ne h3le
    exact ⟨minFold q qs, rfl, hne9, hle9⟩

theorem stair5 (f : Nat) (hf : 21 ≤ f) :
    ∃ r, pathfindFuel freeGrid5 4 4 f 4 1
      [(0, 0), (1, 0), (2, 0), (3, 0), (4, 0)] = .ok r ∧
      r ≠ [] ∧ r.length ≤ 9 := by
  obtain ⟨g, rfl⟩ : ∃ g, f = g + 1 := ⟨f - 1, by omega⟩
  rw [pathfindFuel, if_neg (by decide), if_neg (by decide), if_neg (by decide)]
  obtain ⟨p1, h1⟩ := pathfind_no_error g 5 1
    [(0, 0), (1, 0), (2, 0), (3, 0), (4, 0), (4, 1)]
    (by decide) (by decide) (by simp; omega)
  obtain ⟨p2, h2⟩ := pathfind_no_error g 3 1
    [(0, 0), (1, 0), (2, 0), (3, 0), (4, 0), (4, 1)]
    (by decide) (by decide) (by simp; omega)
  obtain ⟨p3, h3, h3ne, h3le⟩ := stair6 g (by omega)
  obtain ⟨p4, h4⟩ := pathfind_no_error g 4 0
    [(0, 0), (1, 0), (2, 0), (3, 0), (4, 0), (4, 1)]
    (by decide) (by decide) (by simp; omega)
  rw [show ([(0, 0), (1, 0), (2, 0), (3, 0), (4, 0)] :
      List (Int × Int)) ++ [(4, 1)] =
      [(0, 0), (1, 0), (2, 0), (3, 0), (4, 0), (4, 1)] from rfl]
  rw [show ((4 : Int) + 1) = 5 from rfl, show ((4 : Int) - 1) = 3 from rfl,
    show ((1 : Int) + 1) = 2 from rfl, show ((1 : Int) - 1) = 0 from rfl]
  rw [h1, ok_bind, h2, ok_bind, h3, ok_bind, h4, ok_bind]
  have hsmem : p3 ∈ [p1, p2, p3, p4] := by simp
  cases hfil : [p1, p2, p3, p4].filter (fun p => !p.isEmpty) with
  | nil => exact absurd hfil (filter_ne_nil hsmem h3ne)
  | cons q qs =>
    obtain ⟨hne9, hle9⟩ := minFold_filter_spec hfil hsmem h3ne h3le
    exact ⟨minFold q qs, rfl, hne9, hle9⟩

theorem stair4 (f : Nat) (hf : 22 ≤ f) :
    ∃ r, pathfindFuel freeGrid5 4 4 f 4 0
      [(0, 0), (1, 0), (2, 0), (3, 0)] = .ok r ∧
      r ≠ [] ∧ r.length ≤ 9 := by
  obtain ⟨g, rfl⟩ : ∃ g, f = g + 1 := ⟨f - 1, by omega⟩
  rw [pathfindFuel, if_neg (by decide), if_neg (by decide), if_neg (by decide)]
  obtain ⟨p1, h1⟩ := pathfind_no_error g 5 0
    [(0, 0), (1, 0), (2, 0), (3, 0), (4, 0)]
    (by decide) (by decide) (by simp; omega)
  obtain ⟨p2, h2⟩ := pathfind_no_error g 3 0
    [(0, 0), (1, 0), (2, 0), (3, 0), (4, 0)]
    (by decide) (by decide) (by simp; omega)
  obtain ⟨p3, h3, h3ne, h3le⟩ := stair5 g (by omega)
  obtain ⟨p4, h4⟩ := pathfind_no_error g 4 (-1)
    [(0, 0), (1, 0), (2, 0), (3, 0), (4, 0)]
    (by decide) (by decide) (by simp; omega)
  rw [show ([(0, 0), (1, 0), (2, 0), (3, 0)] :
      List (Int × Int)) ++ [(4, 0)] =
      [(0, 0), (1, 0), (2, 0), (3, 0), (4, 0)] from rfl]
  rw [show ((4 : Int) + 1) = 5 from rfl, show ((4 : Int) - 1) = 3 from rfl,
    show ((0 : Int) + 1) = 1 from rfl, show ((0 : Int) - 1) = -1 from rfl]
  rw [h1, ok_bind, h2, ok_bind, h3, ok_bind, h4, ok_bind]
  have hsmem : p3 ∈ [p1, p2, p3, p4] := by simp
  cases hfil : [p1, p2, p3, p4].filter (fun p => !p.isEmpty) with
  | nil => exact absurd hfil (filter_ne_nil hsmem h3ne)
  | cons q qs =>
    obtain ⟨hne9, hle9⟩ := minFold_filter_spec hfil hsmem h3ne h3le
    exact ⟨minFold q qs, rfl, hne9, hle9⟩

theorem stair3 (f : Nat) (hf : 23 ≤ f) :
    ∃ r, pathfindFuel freeGrid5 4 4 f 3 0
      [(0, 0), (1, 0), (2, 0)] = .ok r ∧
      r ≠ [] ∧ r.length ≤ 9 := by
  obtain ⟨g, rfl⟩ : ∃ g, f = g + 1 := ⟨f - 1, by omega⟩
  rw [pathfindFuel, if_neg (by decide), if_neg (by decide), if_neg (by decide)]
  obtain ⟨p1, h1, h1ne, h1le⟩ := stair4 g (by omega)
  obtain ⟨p2, h2⟩ := pathfind_no_error g 2 0
    [(0, 0), (1, 0), (2, 0), (3, 0)]
    (by decide) (by decide) (by simp; omega)
  obtain ⟨p3, h3⟩ := pathfind_no_error g 3 1
    [(0, 0), (1, 0), (2, 0), (3, 0)]
    (by decide) (by decide) (by simp; omega)
  obtain ⟨p4, h4⟩ := pathfind_no_error g 3 (-1)
    [(0, 0), (1, 0), (2, 0), (3, 0)]
    (by decide) (by decide) (by simp; omega)
  rw [show ([(0, 0), (1, 0), (2, 0)] :
      List (Int × Int)) ++ [(3, 0)] =
      [(0, 0), (1, 0), (2, 0), (3, 0)] from rfl]
  rw [show ((3 : Int) + 1) = 4 from rfl, show ((3 : Int) - 1) = 2 from rfl,
    show ((0 : Int) + 1) = 1 from rfl, show ((0 : Int) - 1) = -1 from rfl]
  rw [h1, ok_bind, h2, ok_bind, h3, ok_bind, h4, ok_bind]
  have hsmem : p1 ∈ [p1, p2, p3, p4] := by simp
  cases hfil : [p1, p2, p3, p4].filter (fun p => !p.isEmpty) with
  | nil => exact absurd hfil (filter_ne_nil hsmem h1ne)
  | cons q qs =>
    obtain ⟨hne9, hle9⟩ := minFold_filter_spec hfil hsmem h1ne h1le
    exact ⟨minFold q qs, rfl, hne9, hle9⟩

theorem stair2 (f : Nat) (hf : 24 ≤ f) :
    ∃ r, pathfindFuel freeGrid5 4 4 f 2 0
      [(0, 0), (1, 0)] = .ok r ∧
      r ≠ [] ∧ r.length ≤ 9 := by
  obtain ⟨g, rfl⟩ : ∃ g, f = g + 1 := ⟨f - 1, by omega⟩
  rw [pathfindFuel, if_neg (by decide), if_neg (by decide), if_neg (by decide)]
  obtain ⟨p1, h1, h1ne, h1le⟩ := stair3 g (by omega)
  obtain ⟨p2, h2⟩ := pathfind_no_error g 1 0
    [(0, 0), (1, 0), (2, 0)]
    (by decide) (by decide) (by simp; omega)
  obtain ⟨p3, h3⟩ := pathfind_no_error g 2 1
    [(0, 0), (1, 0), (2, 0)]
    (by decide) (by decide) (by simp; omega)
  obtain ⟨p4, h4⟩ := pathfind_no_error g 2 (-1)
    [(0, 0), (1, 0), (2, 0)]
    (by decide) (by decide) (by simp; omega)
  rw [show ([(0, 0), (1, 0)] :
      List (Int × Int)) ++ [(2, 0)] =
      [(0, 0), (1, 0), (2, 0)] from rfl]
  rw [show ((2 : Int) + 1) = 3 from rfl, show ((2 : Int) - 1) = 1 from rfl,
    show ((0 : Int) + 1) = 1 from rfl, show ((0 : Int) - 1) = -1 from rfl]
  rw [h1, ok_bind, h2, ok_bind, h3, ok_bind, h4, ok_bind]
  have hsmem : p1 ∈ [p1, p2, p3, p4] := by simp
  cases hfil : [p1, p2, p3, p4].filter (fun p => !p.isEmpty) with
  | nil => exact absurd hfil (filter_ne_nil hsmem h1ne)
  | cons q qs =>
    obtain ⟨hne9, hle9⟩ := minFold_filter_spec hfil hsmem h1ne h1le
    exact ⟨minFold q qs, rfl, hne9, hle9⟩

theorem stair1 (f : Nat) (hf : 25 ≤ f) :
    ∃ r, pathfindFuel freeGrid5 4 4 f 1 0
      [(0, 0)] = .ok r ∧
      r ≠ [] ∧ r.length ≤ 9 := by
  obtain ⟨g, rfl⟩ : ∃ g, f = g + 1 := ⟨f - 1, by omega⟩
  rw [pathfindFuel, if_neg (by decide), if_neg (by decide), if_neg (by decide)]
  obtain ⟨p1, h1, h1ne, h1le⟩ := stair2 g (by omega)
  obtain ⟨p2, h2⟩ := pathfind_no_error g 0 0
    [(0, 0), (1, 0)]
    (by decide) (by decide) (by simp; omega)
  obtain ⟨p3, h3⟩ := pathfind_no_error g 1 1
    [(0, 0), (1, 0)]
    (by decide) (by decide) (by simp; omega)
  obtain ⟨p4, h4⟩ := pathfind_no_error g 1 (-1)
    [(0, 0), (1, 0)]
    (by decide) (by decide) (by simp; omega)
  rw [show ([(0, 0)] : List (Int × Int)) ++ [(1, 0)] = [(0, 0), (1, 0)] from rfl]
  rw [show ((1 : Int) + 1) = 2 from rfl, show ((1 : Int) - 1) = 0 from rfl,
    show ((0 : Int) + 1) = 1 from rfl, show ((0 : Int) - 1) = -1 from rfl]
  rw [h1, ok_bind, h2, ok_bind, h3, ok_bind, h4, ok_bind]
  have hsmem : p1 ∈ [p1, p2, p3, p4] := by simp
  cases hfil : [p1, p2, p3, p4].filter (fun p => !p.isEmpty) with
  | nil => exact absurd hfil (filter_ne_nil hsmem h1ne)
  | cons q qs =>
    obtain ⟨hne9, hle9⟩ := minFold_filter_spec hfil hsmem h1ne h1le
    exact ⟨minFold q qs, rfl, hne9, hle9⟩

theorem stair0 (f : Nat) (hf : 26 ≤ f) :
    ∃ r, pathfindFuel freeGrid5 4 4 f 0 0 [] = .ok r ∧
      r ≠ [] ∧ r.length ≤ 9 := by
  obtain ⟨g, rfl⟩ : ∃ g, f = g + 1 := ⟨f - 1, by omega⟩
  rw [pathfindFuel, if_neg (by decide), if_neg (by decide), if_neg (by decide)]
  obtain ⟨p1, h1, h1ne, h1le⟩ := stair1 g (by omega)
  obtain ⟨p2, h2⟩ := pathfind_no_error g (-1) 0
    [(0, 0)]
    (by decide) (by decide) (by simp; omega)
  obtain ⟨p3, h3⟩ := pathfind_no_error g 0 1
    [(0, 0)]
    (by decide) (by decide) (by simp; omega)
  obtain ⟨p4, h4⟩ := pathfind_no_error g 0 (-1)
    [(0, 0)]
    (by decide) (by decide) (by simp; omega)
  rw [show ([] : List (Int × Int)) ++ [(0, 0)] = [(0, 0)] from rfl]
  rw [show ((0 : Int) + 1) = 1 from rfl, show ((0 : Int) - 1) = -1 from rfl]
  rw [h1, ok_bind, h2, ok_bind, h3, ok_bind, h4, ok_bind]
  have hsmem : p1 ∈ [p1, p2, p3, p4] := by simp
  cases hfil : [p1, p2, p3, p4].filter (fun p => !p.isEmpty) with
  | nil => exact absurd hfil (filter_ne_nil hsmem h1ne)
  | cons q qs =>
    obtain ⟨hne9, hle9⟩ := minFold_filter_spec hfil hsmem h1ne h1le
    exact ⟨minFold q qs, rfl, hne9, hle9⟩

/-- C8: the naive pathfinding on the obstacle-free 5×5 grid from (0,0) to
(4,4) (explored in the tie-break order down, up, right, left, skipping
cells already on the current path) succeeds and returns a path of exactly
9 cells — the start cell plus 8 moves, which is the minimum possible cell
count, hence the shortest discovered path.  Lower bound: every returned
path extends the current path by at least 1 + Manhattan distance cells
(`pathfind_lower_bound`); upper bound: the down-then-right staircase is
discovered, and the final `min(paths, key=len)` returns a path no longer
than it (`stair0`). -/
theorem pathfinding_naive_5x5_len :
    (pathfinding_naive freeGrid5 0 0 4 4 [] 0).map List.length = .ok 9 := by
  obtain ⟨r, hr, hne, hle⟩ := stair0 1001 (by omega)
  have hlow := pathfind_lower_bound 1001 0 0 [] r hr hne
  simp only [List.length_nil] at hlow
  have h9 : r.length = 9 := by omega
  rw [pathfinding_naive, show 1001 - 0 = 1001 from rfl, hr]
  rw [Except.map, h9]


/-! ## The task dispatcher and metrics -/

/-- Result values computed by the three algorithm branches of the
dispatcher: a Fibonacci number, a traversal sequence, or a path. -/
inductive Value where
  | int (n : Int)
  | strs (l : List String)
  | cells (l : List (Int × Int))
deriving DecidableEq, Repr

/-- A metrics-store record (`calculate_recursion_metrics`,
recursive_algorithm.py lines 140-154).  The wall-clock `timestamp`,
`datetime` and `system_metrics` fields are environment readings outside the
shallow embedding and are not modelled; `execution_time` is the measured
duration passed in by the dispatcher (an oracle in this model). -/
structure MetricRecord where
  recursion_depth : Int
  execution_time : Rat
  memory_usage : Nat
  algorithm : String
  success : Bool
deriving DecidableEq, Repr

/-- Mutable state of `OptimizedRecursion`: the metrics store
(`recursion_depth_metrics`) and the request/error counters. -/
structure DispatchState where
  metrics : List MetricRecord
  request_counter : Nat
  error_counter : Nat
deriving DecidableEq, Repr

/-- The state of a fresh `OptimizedRecursion` instance. -/
def initialState : DispatchState := DispatchState.mk [] 0 0

/-- The dict returned by `process_recursive_task`: the success dict carries
`result` and `memory_peak`, the failure dict carries `error`; both carry
`execution_time`, `recursion_depth` and `request_id`. -/
structure DispatchResult where
  success : Bool
  result : Option Value
  error : Option String
  execution_time : Rat
  memory_peak : Option Nat
  recursion_depth : Int
  request_id : Nat
deriving DecidableEq, Repr

/-- `OptimizedRecursion.generate_grid` (optimization.py lines 124-130): a
`size` x `size` grid of free cells, with an obstacle in the middle column
(`size // 2`) of every other row (`range(1, size - 1, 2)`: odd rows `i`
with `1 <= i < size - 1`). -/
def generate_grid (size : Nat) : List (List Nat) :=
  (List.range size).map (fun i =>
    (List.range size).map (fun j =>
      if i % 2 = 1 ∧ 1 ≤ i ∧ i < size - 1 ∧ j = size / 2 then 1 else 0))

/-- The try-block of `OptimizedRecursion.process_recursive_task`
(optimization.py lines 33-62): input validation (`n <= 0`, then
`n > 10000 and not use_optimization`), then routing on the algorithm name:
fibonacci (iterative when optimized, else the `n > 35` guard and the naive
recursion), tree_traversal (generate the tree, then iterative when
optimized, else the `n > 500` guard and the naive traversal), pathfinding
(grid of size `min(n, 20)`, target clamped to `min(n - 1, 19)`), and
`ValueError` for an unknown algorithm name. -/
def runTask (algorithm : String) (n : Int) (use_optimization : Bool) :
    Except PyError Value :=
  if n ≤ 0 then .error (.valueError "Depth must be positive")
  else if n > 10000 ∧ ¬use_optimization then
    .error (.valueError "Unoptimized recursion depth too high")
  else if algorithm = "fibonacci" then
    if use_optimization then (fibonacci_iterative n).map Value.int
    else if n > 35 then
      .error (.recursionError ("Naive Fibonacci too slow for n=" ++ toString n))
    else (fibonacci_naive n).map Value.int
  else if algorithm = "tree_traversal" then
    let tree := generate_deep_tree n
    if use_optimization then .ok (Value.strs (tree_traversal_iterative tree))
    else if n > 500 then
      .error (.recursionError ("Naive tree traversal too deep for n=" ++ toString n))
    else (tree_traversal_naive tree 0).map Value.strs
  else if algorithm = "pathfinding" then
    let grid := generate_grid (min n 20).toNat
    (pathfinding_naive grid 0 0 (min (n - 1) 19) (min (n - 1) 19) [] 0).map Value.cells
  else .error (.valueError ("Unknown algorithm: " ++ algorithm))

/-- Tests whether an engine outcome is a `RecursionError`
(the spec error kind `DepthExceeded`). -/
def isRecursionError : Except PyError Value → Bool
  | .error (.recursionError _) => true
  | _ => false

/-- `OptimizedRecursion.process_recursive_task` (optimization.py lines
22-112): assigns the next request id, runs the task, and returns the result
dict together with the updated state.  On success a MetricRecord with
`success = true` is appended; on `RecursionError` the error counter is
incremented and a MetricRecord with `success = false` and memory 0 is
appended; on any other exception the error counter is incremented and no
MetricRecord is appended.  The wall-clock duration `t` and traced peak
memory `mem` are environment readings passed as oracle parameters (the
failure handlers read the clock again; both readings are modelled as the
same `t`). -/
def process_recursive_task (algorithm : String) (n : Int)
    (use_optimization : Bool) (t : Rat) (mem : Nat) (s : DispatchState) :
    DispatchResult × DispatchState :=
  let rid := s.request_counter + 1
  match runTask algorithm n use_optimization with
  | .ok v =>
    (DispatchResult.mk true (some v) none t (some mem) n rid,
     DispatchState.mk (s.metrics ++ [MetricRecord.mk n t mem algorithm true])
       rid s.error_counter)
  | .error (.recursionError msg) =>
    (DispatchResult.mk false none (some ("RecursionError: " ++ msg)) t none n rid,
     DispatchState.mk (s.metrics ++ [MetricRecord.mk n t 0 algorithm false])
       rid (s.error_counter + 1))
  | .error (.valueError msg) =>
    (DispatchResult.mk false none (some ("Error: " ++ msg)) t none n rid,
     DispatchState.mk s.metrics rid (s.error_counter + 1))

/-- The stats dict of `OptimizedRecursion.get_performance_stats`
(optimization.py lines 147-164); the `system_metrics` entry is an
environment reading and is not modelled. -/
structure Stats where
  total_requests : Nat
  successful_requests : Nat
  failed_requests : Nat
  error_rate : Rat
  avg_execution_time : Rat
  max_execution_time : Rat
deriving DecidableEq, Repr

/-- `OptimizedRecursion.get_performance_stats`: splits the metrics store
into successful and failed records; `total_requests` is the request
counter, the error rate is `failed / total * 100` (0 when no requests),
and the mean and maximum execution times range over the successful
records only (0 when there are none). -/
def get_performance_stats (s : DispatchState) : Stats :=
  let successful_requests := s.metrics.filter (fun m => m.success)
  let failed_requests := s.metrics.filter (fun m => !m.success)
  let execution_times := successful_requests.map (fun m => m.execution_time)
  Stats.mk s.request_counter successful_requests.length failed_requests.length
    (if s.request_counter > 0 then
      (failed_requests.length : Rat) / (s.request_counter : Rat) * 100 else 0)
    (if execution_times.length > 0 then
      execution_times.sum / (execution_times.length : Rat) else 0)
    (if execution_times.length > 0 then (execution_times.max?).getD 0 else 0)

end RecOpt


namespace RecOpt

/-- In the dispatcher, an unoptimized fibonacci request with 35 < n ≤ 10000
passes validation and hits the `n > 35` guard, raising `RecursionError`
before `fibonacci_naive` is ever called. -/
theorem runTask_fib_naive_guard (n : Int) (h35 : 35 < n) (h10k : n ≤ 10000) :
    runTask "fibonacci" n false =
      .error (.recursionError ("Naive Fibonacci too slow for n=" ++ toString n)) := by
  rw [runTask, if_neg (by omega), if_neg (by simp; omega), if_pos rfl]
  simp only [Bool.false_eq_true, if_false]
  rw [if_pos (by omega)]

/-- C3 (amended): every naive (optimized = false) Fibonacci dispatch with
35 < n ≤ 10000 fails with `DepthExceeded` (a `RecursionError`), rejected by
the dispatcher guard before the recursive computation executes; in
particular n = 36 does.  The restriction to n ≤ 10000 is forced: for
n > 10000 the earlier unoptimized-depth validation raises `ValueError`
(`InvalidInput`) instead — see the counterexample at n = 10001. -/
theorem fib_naive_over35_depth_exceeded (n : Int) (t : Rat) (mem : Nat)
    (s : DispatchState) (h35 : 35 < n) (h10k : n ≤ 10000) :
    (process_recursive_task "fibonacci" n false t mem s).1.success = false ∧
    (process_recursive_task "fibonacci" n false t mem s).1.error =
      some ("RecursionError: Naive Fibonacci too slow for n=" ++ toString n) ∧
    isRecursionError (runTask "fibonacci" n false) = true := by
  have hrt := runTask_fib_naive_guard n h35 h10k
  rw [process_recursive_task]
  rw [hrt]
  exact ⟨rfl, rfl, rfl⟩

/-- Witness for C3 at n = 36. -/
theorem fib_naive_over35_depth_exceeded_witness :
    ((35 : Int) < 36 ∧ (36 : Int) ≤ 10000) ∧
      ((process_recursive_task "fibonacci" 36 false 0 0 initialState).1.success = false ∧
      (process_recursive_task "fibonacci" 36 false 0 0 initialState).1.error =
        some ("RecursionError: Naive Fibonacci too slow for n=" ++ toString (36 : Int)) ∧
      isRecursionError (runTask "fibonacci" 36 false) = true) :=
  ⟨by decide, fib_naive_over35_depth_exceeded 36 0 0 initialState (by decide) (by decide)⟩

/-- Counterexample to C3 as stated: the naive Fibonacci dispatch with
n = 10001 > 35 does not fail with `DepthExceeded` — it fails with the
`InvalidInput` validation error `ValueError` instead. -/
theorem fib_naive_10001_not_depth_exceeded :
    runTask "fibonacci" 10001 false =
      .error (.valueError "Unoptimized recursion depth too high") ∧
    isRecursionError (runTask "fibonacci" 10001 false) = false := by
  constructor <;> decide


/-- C4: whenever a dispatch fails with `DepthExceeded` (the engine or guard
raised `RecursionError`), the dispatcher returns a non-raising result object
with success = false, an error string describing the depth-exceeded
condition, the measured execution time, the requested depth and the request
id, and appends exactly one MetricRecord with success = false to the
metrics store. -/
theorem depth_exceeded_recorded (algorithm : String) (n : Int)
    (use_optimization : Bool) (t : Rat) (mem : Nat) (s : DispatchState)
    (msg : String)
    (h : runTask algorithm n use_optimization = .error (.recursionError msg)) :
    (process_recursive_task algorithm n use_optimization t mem s).1.success = false ∧
    (process_recursive_task algorithm n use_optimization t mem s).1.error =
      some ("RecursionError: " ++ msg) ∧
    (process_recursive_task algorithm n use_optimization t mem s).1.execution_time = t ∧
    (process_recursive_task algorithm n use_optimization t mem s).1.recursion_depth = n ∧
    (process_recursive_task algorithm n use_optimization t mem s).1.request_id =
      s.request_counter + 1 ∧
    (process_recursive_task algorithm n use_optimization t mem s).2.metrics =
      s.metrics ++ [MetricRecord.mk n t 0 algorithm false] := by
  rw [process_recursive_task, h]
  exact ⟨rfl, rfl, rfl, rfl, rfl, rfl⟩

/-- Witness for C4: the naive Fibonacci dispatch at n = 36. -/
theorem depth_exceeded_recorded_witness :
    (runTask "fibonacci" 36 false =
      .error (.recursionError "Naive Fibonacci too slow for n=36")) ∧
    ((process_recursive_task "fibonacci" 36 false 1 0 initialState).1.success = false ∧
    (process_recursive_task "fibonacci" 36 false 1 0 initialState).1.error =
      some ("RecursionError: " ++ "Naive Fibonacci too slow for n=36") ∧
    (process_recursive_task "fibonacci" 36 false 1 0 initialState).1.execution_time = 1 ∧
    (process_recursive_task "fibonacci" 36 false 1 0 initialState).1.recursion_depth = 36 ∧
    (process_recursive_task "fibonacci" 36 false 1 0 initialState).1.request_id =
      initialState.request_counter + 1 ∧
    (process_recursive_task "fibonacci" 36 false 1 0 initialState).2.metrics =
      initialState.metrics ++ [MetricRecord.mk 36 1 0 "fibonacci" false]) :=
  ⟨by decide,
   depth_exceeded_recorded "fibonacci" 36 false 1 0 initialState
     "Naive Fibonacci too slow for n=36" (by decide)⟩

/-- C5: a dispatch with depth ≤ 0 fails with the `InvalidInput` error
`Depth must be positive`, and an unoptimized dispatch with depth > 10000
fails with the `InvalidInput` error `Unoptimized recursion depth too high`;
in both cases the metrics store is unchanged — the engine is never reached
(both errors are raised by the validation lines before any algorithm
routing). -/
theorem invalid_input_rejected (algorithm : String) (n : Int)
    (use_optimization : Bool) (t : Rat) (mem : Nat) (s : DispatchState) :
    (n ≤ 0 →
      (process_recursive_task algorithm n use_optimization t mem s).1.success = false ∧
      (process_recursive_task algorithm n use_optimization t mem s).1.error =
        some ("Error: " ++ "Depth must be positive") ∧
      (process_recursive_task algorithm n use_optimization t mem s).2.metrics =
        s.metrics) ∧
    (n > 10000 ∧ use_optimization = false →
      (process_recursive_task algorithm n use_optimization t mem s).1.success = false ∧
      (process_recursive_task algorithm n use_optimization t mem s).1.error =
        some ("Error: " ++ "Unoptimized recursion depth too high") ∧
      (process_recursive_task algorithm n use_optimization t mem s).2.metrics =
        s.metrics) := by
  constructor
  · intro hn
    have hrt : runTask algorithm n use_optimization =
        .error (.valueError "Depth must be positive") := by
      rw [runTask, if_pos hn]
    rw [process_recursive_task, hrt]
    exact ⟨rfl, rfl, rfl⟩
  · intro ⟨h10k, hopt⟩
    have hrt : runTask algorithm n use_optimization =
        .error (.valueError "Unoptimized recursion depth too high") := by
      rw [runTask, if_neg (by omega), if_pos (by simp [hopt]; omega)]
    rw [process_recursive_task, hrt]
    exact ⟨rfl, rfl, rfl⟩

/-- Witness for C5 at depth 0 and at depth 20000 (unoptimized). -/
theorem invalid_input_rejected_witness :
    ((0 : Int) ≤ 0 ∧
      ((process_recursive_task "fibonacci" 0 true 0 0 initialState).1.success = false ∧
      (process_recursive_task "fibonacci" 0 true 0 0 initialState).1.error =
        some ("Error: " ++ "Depth must be positive") ∧
      (process_recursive_task "fibonacci" 0 true 0 0 initialState).2.metrics =
        initialState.metrics)) ∧
    (((20000 : Int) > 10000 ∧ false = false) ∧
      ((process_recursive_task "fibonacci" 20000 false 0 0 initialState).1.success = false ∧
      (process_recursive_task "fibonacci" 20000 false 0 0 initialState).1.error =
        some ("Error: " ++ "Unoptimized recursion depth too high") ∧
      (process_recursive_task "fibonacci" 20000 false 0 0 initialState).2.metrics =
        initialState.metrics)) :=
  ⟨⟨by decide, (invalid_input_rejected "fibonacci" 0 true 0 0 initialState).1 (by decide)⟩,
   ⟨by decide, (invalid_input_rejected "fibonacci" 20000 false 0 0 initialState).2 (by decide)⟩⟩

/-- C6 (amended): every non-`RecursionError` failure during dispatch (an
`InternalFault`, e.g. an unknown algorithm name) is surfaced to the caller
as a failed result with the generic `Error:` message and increments the
error counter, but — contrary to the claim — no MetricRecord is appended:
the generic exception handler of `process_recursive_task` (optimization.py
lines 101-112) does not call `calculate_recursion_metrics`. -/
theorem internal_fault_not_recorded (algorithm : String) (n : Int)
    (use_optimization : Bool) (t : Rat) (mem : Nat) (s : DispatchState)
    (msg : String)
    (h : runTask algorithm n use_optimization = .error (.valueError msg)) :
    (process_recursive_task algorithm n use_optimization t mem s).1.success = false ∧
    (process_recursive_task algorithm n use_optimization t mem s).1.error =
      some ("Error: " ++ msg) ∧
    (process_recursive_task algorithm n use_optimization t mem s).2.error_counter =
      s.error_counter + 1 ∧
    (process_recursive_task algorithm n use_optimization t mem s).2.metrics =
      s.metrics := by
  rw [process_recursive_task, h]
  exact ⟨rfl, rfl, rfl, rfl⟩

/-- Witness for C6: dispatching the unknown algorithm name `quantum`. -/
theorem internal_fault_not_recorded_witness :
    (runTask "quantum" 5 true = .error (.valueError "Unknown algorithm: quantum")) ∧
    ((process_recursive_task "quantum" 5 true 0 0 initialState).1.success = false ∧
    (process_recursive_task "quantum" 5 true 0 0 initialState).1.error =
      some ("Error: " ++ "Unknown algorithm: quantum") ∧
    (process_recursive_task "quantum" 5 true 0 0 initialState).2.error_counter =
      initialState.error_counter + 1 ∧
    (process_recursive_task "quantum" 5 true 0 0 initialState).2.metrics =
      initialState.metrics) :=
  ⟨by decide,
   internal_fault_not_recorded "quantum" 5 true 0 0 initialState
     "Unknown algorithm: quantum" (by decide)⟩

/-- Counterexample to C6 as stated: dispatching an unknown algorithm name
from the initial state fails and increments the error counter, yet the
metrics store stays empty — the failure is not recorded as a MetricRecord. -/
theorem unknown_algorithm_no_metric :
    (process_recursive_task "quantum" 5 true 0 0 initialState).1.success = false ∧
    (process_recursive_task "quantum" 5 true 0 0 initialState).2.error_counter = 1 ∧
    (process_recursive_task "quantum" 5 true 0 0 initialState).2.metrics = [] := by
  refine ⟨?_, ?_, ?_⟩ <;> decide

/-- In the dispatcher, an unoptimized tree_traversal request with
500 < n ≤ 10000 passes validation and hits the `n > 500` guard, raising
`RecursionError` before `tree_traversal_naive` is invoked. -/
theorem runTask_tree_naive_guard (n : Int) (h500 : 500 < n) (h10k : n ≤ 10000) :
    runTask "tree_traversal" n false =
      .error (.recursionError ("Naive tree traversal too deep for n=" ++ toString n)) := by
  rw [runTask, if_neg (by omega), if_neg (by simp; omega), if_neg (by decide), if_pos rfl]
  simp only [Bool.false_eq_true, if_false]
  rw [if_pos (by omega)]

/-- C10 (amended): every unoptimized tree_traversal dispatch with
500 < depth ≤ 10000 is rejected by the dispatcher's `n > 500` guard — a
stricter cap than the general depth ≤ 10000 validation — before the naive
traversal runs, returning success = false and recording one failed
MetricRecord; so naive traversals with 500 < depth ≤ 10000 never run.  The
restriction to depth ≤ 10000 is forced: beyond it the unoptimized-depth
validation raises `InvalidInput` first and no MetricRecord is recorded —
see the counterexample at depth 10001.  (The embedding treats the tree
generator as total; CPython's own interpreter stack limit could additionally
abort very deep `generate_deep_tree` calls with its own `RecursionError`,
which the same handler would also record as a failed MetricRecord.) -/
theorem tree_naive_over500_rejected (n : Int) (t : Rat) (mem : Nat)
    (s : DispatchState) (h500 : 500 < n) (h10k : n ≤ 10000) :
    (process_recursive_task "tree_traversal" n false t mem s).1.success = false ∧
    (process_recursive_task "tree_traversal" n false t mem s).1.error =
      some ("RecursionError: Naive tree traversal too deep for n=" ++ toString n) ∧
    (process_recursive_task "tree_traversal" n false t mem s).2.metrics =
      s.metrics ++ [MetricRecord.mk n t 0 "tree_traversal" false] := by
  have hrt := runTask_tree_naive_guard n h500 h10k
  rw [process_recursive_task, hrt]
  exact ⟨rfl, rfl, rfl⟩

/-- Witness for C10 at depth 501. -/
theorem tree_naive_over500_rejected_witness :
    ((500 : Int) < 501 ∧ (501 : Int) ≤ 10000) ∧
      ((process_recursive_task "tree_traversal" 501 false 0 0 initialState).1.success = false ∧
      (process_recursive_task "tree_traversal" 501 false 0 0 initialState).1.error =
        some ("RecursionError: Naive tree traversal too deep for n=" ++ toString (501 : Int)) ∧
      (process_recursive_task "tree_traversal" 501 false 0 0 initialState).2.metrics =
        initialState.metrics ++ [MetricRecord.mk 501 0 0 "tree_traversal" false]) :=
  ⟨by decide, tree_naive_over500_rejected 501 0 0 initialState (by decide) (by decide)⟩

/-- Counterexample to C10 as stated: the unoptimized tree_traversal
dispatch at depth 10001 > 500 is not rejected with a depth error and no
failed MetricRecord is recorded; it fails with the `InvalidInput`
validation error instead. -/
theorem tree_naive_10001_no_metric :
    isRecursionError (runTask "tree_traversal" 10001 false) = false ∧
    (process_recursive_task "tree_traversal" 10001 false 0 0 initialState).2.metrics = [] ∧
    (process_recursive_task "tree_traversal" 10001 false 0 0 initialState).1.error =
      some "Error: Unoptimized recursion depth too high" := by
  refine ⟨?_, ?_, ?_⟩ <;> decide


/-- One dispatch request: the (algorithm, depth, optimized) triple of the
API plus the wall-clock duration and peak-memory oracle readings of that
call. -/
structure Request where
  algorithm : String
  depth : Int
  optimized : Bool
  time : Rat
  mem : Nat
deriving DecidableEq, Repr

/-- Folds a sequence of dispatches through the dispatcher state. -/
def runRequests : List Request → DispatchState → DispatchState
  | [], s => s
  | r :: rs, s =>
    runRequests rs (process_recursive_task r.algorithm r.depth r.optimized r.time r.mem s).2

/-- Whether a dispatch of this request produces a MetricRecord: every
outcome except a `ValueError` (validation failure or unknown algorithm)
appends exactly one record. -/
def recordsMetric (algorithm : String) (n : Int) (opt : Bool) : Bool :=
  match runTask algorithm n opt with
  | .error (.valueError _) => false
  | _ => true

/-- N of C7: the number of successful MetricRecords in the store. -/
def successCount (s : DispatchState) : Nat :=
  (s.metrics.filter (fun m => m.success)).length

/-- M of C7: the number of failed MetricRecords in the store. -/
def failureCount (s : DispatchState) : Nat :=
  (s.metrics.filter (fun m => !m.success)).length

/-- The execution times of the successful records, in store order. -/
def successTimes (s : DispatchState) : List Rat :=
  (s.metrics.filter (fun m => m.success)).map (fun m => m.execution_time)

theorem step_counts (algorithm : String) (n : Int) (opt : Bool) (t : Rat)
    (mem : Nat) (s : DispatchState) (h : recordsMetric algorithm n opt = true) :
    (process_recursive_task algorithm n opt t mem s).2.request_counter =
      s.request_counter + 1 ∧
    (process_recursive_task algorithm n opt t mem s).2.metrics.length =
      s.metrics.length + 1 := by
  rw [recordsMetric] at h
  cases ht : runTask algorithm n opt with
  | ok v =>
    rw [process_recursive_task, ht]
    exact ⟨rfl, by simp⟩
  | error e =>
    cases e with
    | valueError msg => rw [ht] at h; simp at h
    | recursionError msg =>
      rw [process_recursive_task, ht]
      exact ⟨rfl, by simp⟩

theorem runRequests_counts (reqs : List Request) :
    ∀ s : DispatchState,
    (∀ r ∈ reqs, recordsMetric r.algorithm r.depth r.optimized = true) →
    (runRequests reqs s).request_counter = s.request_counter + reqs.length ∧
    (runRequests reqs s).metrics.length = s.metrics.length + reqs.length := by
  induction reqs with
  | nil => intro s _; rw [runRequests]; exact ⟨by simp, by simp⟩
  | cons r rs ih =>
    intro s hall
    rw [runRequests]
    have hr := hall r (by simp)
    obtain ⟨hc1, hm1⟩ := step_counts r.algorithm r.depth r.optimized r.time r.mem s hr
    obtain ⟨hc2, hm2⟩ := ih _ (fun x hx => hall x (by simp [hx]))
    rw [hc2, hm2, hc1, hm1]
    constructor <;> simp <;> omega

theorem length_filter_partition (l : List MetricRecord) :
    (l.filter (fun m => m.success)).length +
      (l.filter (fun m => !m.success)).length = l.length := by
  induction l with
  | nil => rfl
  | cons m ms ih =>
    by_cases hm : m.success
    · simp [List.filter, hm, ← ih]
      omega
    · simp only [Bool.not_eq_true] at hm
      simp [List.filter, hm, ← ih]
      omega

/-- C7: after any sequence of dispatches in which every dispatch is
recorded (N successful and M failed-but-recorded, with no
validation-rejected dispatches), the stats aggregate reports
total_requests = N + M, error_rate = M / (N + M) * 100 (0 when the total
is 0), and the mean and maximum execution times are computed over the
successful records only. -/
theorem stats_after_dispatches (reqs : List Request)
    (hrec : ∀ r ∈ reqs, recordsMetric r.algorithm r.depth r.optimized = true) :
    (get_performance_stats (runRequests reqs initialState)).total_requests =
      successCount (runRequests reqs initialState) +
        failureCount (runRequests reqs initialState) ∧
    (get_performance_stats (runRequests reqs initialState)).error_rate =
      (if successCount (runRequests reqs initialState) +
          failureCount (runRequests reqs initialState) = 0 then 0
       else (failureCount (runRequests reqs initialState) : Rat) /
         ((successCount (runRequests reqs initialState) +
           failureCount (runRequests reqs initialState) : Nat) : Rat) * 100) ∧
    (get_performance_stats (runRequests reqs initialState)).avg_execution_time =
      (if successTimes (runRequests reqs initialState) = [] then 0
       else (successTimes (runRequests reqs initialState)).sum /
         ((successTimes (runRequests reqs initialState)).length : Rat)) ∧
    (get_performance_stats (runRequests reqs initialState)).max_execution_time =
      ((successTimes (runRequests reqs initialState)).max?).getD 0 := by
  obtain ⟨hc, hm⟩ := runRequests_counts reqs initialState hrec
  rw [show initialState.request_counter = 0 from rfl] at hc
  rw [show initialState.metrics.length = 0 from rfl] at hm
  rw [Nat.zero_add] at hc hm
  have hpart := length_filter_partition (runRequests reqs initialState).metrics
  rw [get_performance_stats]
  refine ⟨?_, ?_, ?_, ?_⟩
  · show (runRequests reqs initialState).request_counter = _
    rw [successCount, failureCount]
    omega
  · show (if (runRequests reqs initialState).request_counter > 0 then _ else _) = _
    rw [successCount, failureCount]
    have hceq : (runRequests reqs initialState).request_counter =
        ((runRequests reqs initialState).metrics.filter (fun m => m.success)).length +
        ((runRequests reqs initialState).metrics.filter (fun m => !m.success)).length := by
      omega
    rw [hceq]
    by_cases h0 : ((runRequests reqs initialState).metrics.filter (fun m => m.success)).length +
        ((runRequests reqs initialState).metrics.filter (fun m => !m.success)).length = 0
    · rw [if_neg (by omega), if_pos h0]
    · rw [if_pos (by omega), if_neg h0]
  · show (if _ > 0 then _ else _) = _
    rw [successTimes]
    cases hts : ((runRequests reqs initialState).metrics.filter (fun m => m.success)).map
        (fun m => m.execution_time) with
    | nil => rw [if_neg (by simp), if_pos rfl]
    | cons a as => rw [if_pos (by simp), if_neg (by simp)]
  · show (if _ > 0 then _ else _) = _
    rw [successTimes]
    cases hts : ((runRequests reqs initialState).metrics.filter (fun m => m.success)).map
        (fun m => m.execution_time) with
    | nil => rw [if_neg (by simp)]; rfl
    | cons a as => rw [if_pos (by simp)]


/-- Witness for C7 on one successful (fibonacci 10, optimized, time 2) and
one failed-but-recorded (fibonacci 36, naive, time 4) dispatch: N = M = 1,
total 2, error rate 50, mean and max 2. -/
theorem stats_after_dispatches_witness :
    (∀ r ∈ [Request.mk "fibonacci" 10 true 2 5, Request.mk "fibonacci" 36 false 4 0],
      recordsMetric r.algorithm r.depth r.optimized = true) ∧
    ((get_performance_stats (runRequests
        [Request.mk "fibonacci" 10 true 2 5, Request.mk "fibonacci" 36 false 4 0]
        initialState)).total_requests =
      successCount (runRequests
        [Request.mk "fibonacci" 10 true 2 5, Request.mk "fibonacci" 36 false 4 0]
        initialState) +
        failureCount (runRequests
        [Request.mk "fibonacci" 10 true 2 5, Request.mk "fibonacci" 36 false 4 0]
        initialState) ∧
    (get_performance_stats (runRequests
        [Request.mk "fibonacci" 10 true 2 5, Request.mk "fibonacci" 36 false 4 0]
        initialState)).error_rate =
      (if successCount (runRequests
          [Request.mk "fibonacci" 10 true 2 5, Request.mk "fibonacci" 36 false 4 0]
          initialState) +
          failureCount (runRequests
          [Request.mk "fibonacci" 10 true 2 5, Request.mk "fibonacci" 36 false 4 0]
          initialState) = 0 then 0
       else (failureCount (runRequests
          [Request.mk "fibonacci" 10 true 2 5, Request.mk "fibonacci" 36 false 4 0]
          initialState) : Rat) /
         ((successCount (runRequests
          [Request.mk "fibonacci" 10 true 2 5, Request.mk "fibonacci" 36 false 4 0]
          initialState) +
           failureCount (runRequests
          [Request.mk "fibonacci" 10 true 2 5, Request.mk "fibonacci" 36 false 4 0]
          initialState) : Nat) : Rat) * 100) ∧
    (get_performance_stats (runRequests
        [Request.mk "fibonacci" 10 true 2 5, Request.mk "fibonacci" 36 false 4 0]
        initialState)).avg_execution_time =
      (if successTimes (runRequests
          [Request.mk "fibonacci" 10 true 2 5, Request.mk "fibonacci" 36 false 4 0]
          initialState) = [] then 0
       else (successTimes (runRequests
          [Request.mk "fibonacci" 10 true 2 5, Request.mk "fibonacci" 36 false 4 0]
          initialState)).sum /
         ((successTimes (runRequests
          [Request.mk "fibonacci" 10 true 2 5, Request.mk "fibonacci" 36 false 4 0]
          initialState)).length : Rat)) ∧
    (get_performance_stats (runRequests
        [Request.mk "fibonacci" 10 true 2 5, Request.mk "fibonacci" 36 false 4 0]
        initialState)).max_execution_time =
      ((successTimes (runRequests
          [Request.mk "fibonacci" 10 true 2 5, Request.mk "fibonacci" 36 false 4 0]
          initialState)).max?).getD 0) :=
  ⟨by decide,
   stats_after_dispatches
     [Request.mk "fibonacci" 10 true 2 5, Request.mk "fibonacci" 36 false 4 0]
     (by decide)⟩

end RecOpt
